import Mathlib

/-!
Shallow embedding of the Docker provisioner image store
(`src/slave/containerizer/mesos/provisioner/docker/store.cpp`).

The store's actor (`StoreProcess`) owns a dedup table `pulling` mapping a
canonical image-reference string to the promise of the one in-flight pull.
All mutations of that table happen inside atomic steps of the single
sequential processor; the asynchronous completions (puller result, metadata
put result) are delivered back as later steps.  We model the actor as a
state (`StoreState`) plus a step function over explicit inputs, each step
returning the new state together with the list of observable events
(puller invocations, registrations, settlements, rmdir attempts) it emits.

The filesystem is modelled as a set of paths (lists of components) plus
file contents, with failure injection for mkdir/rename/rmdir/mkdtemp so
that the error paths of the code are reachable in the model.
-/

namespace DockerStore

/-- A filesystem path, as a list of components (`path::join` appends a
component). -/
abbrev Path := List String

/-- Render a path the way the C++ code's strings do (components joined
by slashes), used only inside error messages. -/
def pathStr (p : Path) : String := String.intercalate "/" p

/-- Model of the filesystem visible to the store: the set of existing
paths, file contents, and failure-injection sets for the fallible
primitives (`os::mkdir`, `os::rename`, `os::rmdir`, `os::mkdtemp`). -/
structure Fs where
  paths : List Path
  files : List (Path × String)
  mkdirFails : List Path
  renameFails : List Path
  rmdirFails : List Path
  mkdtempFails : List Nat
deriving DecidableEq

/-- `os::exists(p)`. -/
def os_exists (fs : Fs) (p : Path) : Bool := fs.paths.contains p

/-- `os::mkdir(p)` (recursive by default in stout): adds the path, or
fails if failure is injected for it. -/
def os_mkdir (fs : Fs) (p : Path) : Except String Fs :=
  if p ∈ fs.mkdirFails then Except.error "Permission denied"
  else Except.ok { fs with paths := p :: fs.paths }

/-- Where the subtree rooted at `src` moves when `src` is renamed to
`tgt`; paths outside that subtree stay put. -/
def renamePath (src tgt p : Path) : Path :=
  if src.isPrefixOf p then tgt ++ p.drop src.length else p

/-- `os::rename(src, tgt)`: moves the whole subtree at `src` under `tgt`,
or fails if failure is injected for `src`. -/
def os_rename (fs : Fs) (src tgt : Path) : Except String Fs :=
  if src ∈ fs.renameFails then Except.error "Device or resource busy"
  else Except.ok { fs with
    paths := fs.paths.map (renamePath src tgt),
    files := fs.files.map (fun pc => (renamePath src tgt pc.1, pc.2)) }

/-- `os::rmdir(p)` (recursive by default in stout): removes the subtree
rooted at `p`, or fails if failure is injected for `p`. -/
def os_rmdir (fs : Fs) (p : Path) : Except String Fs :=
  if p ∈ fs.rmdirFails then Except.error "Directory not empty"
  else Except.ok { fs with
    paths := fs.paths.filter (fun q => !(p.isPrefixOf q)),
    files := fs.files.filter (fun pc => !(p.isPrefixOf pc.1)) }

/-- `os::read(p)`: the contents of the file at `p`, or an error when it
is absent. -/
def os_read (fs : Fs) (p : Path) : Except String String :=
  match fs.files.find? (fun pc => pc.1 == p) with
  | some pc => Except.ok pc.2
  | none => Except.error "No such file or directory"

/-- `os::mkdtemp(template)`: replaces the trailing `XXXXXX` component of
the template by a unique name (drawn from the store actor's counter `n`),
creates that directory and returns it; failure injectable per counter. -/
def os_mkdtemp (fs : Fs) (template : Path) (n : Nat) : Except String (Path × Fs) :=
  if n ∈ fs.mkdtempFails then Except.error "mkdtemp failed"
  else
    let d := template.dropLast ++ [Nat.repr n]
    Except.ok (d, { fs with paths := d :: fs.paths })

/-- Modelled from the spec: `paths::getStagingDir` of `paths.hpp` (not in
src/); spec section 6 places ephemeral pull directories under `staging/`
below the store root. -/
def getStagingDir (storeDir : Path) : Path := storeDir ++ ["staging"]

/-- Modelled from the spec: `paths::getStagingTempDir` of `paths.hpp`
(not in src/); the `mkdtemp` template for a per-attempt unique directory
under the staging root. -/
def getStagingTempDir (storeDir : Path) : Path := getStagingDir storeDir ++ ["XXXXXX"]

/-- Modelled from the spec: `paths::getImageLayerPath` of `paths.hpp`
(not in src/); spec section 6 places a layer at `layers/<layerId>` below
the store root. -/
def getImageLayerPath (storeDir : Path) (layerId : String) : Path :=
  storeDir ++ ["layers", layerId]

/-- The `layers/` root below the store root; every placed layer directory
lives under it. -/
def getLayersDir (storeDir : Path) : Path := storeDir ++ ["layers"]

/-- Modelled from the spec: `paths::getImageLayerRootfsPath` of
`paths.hpp` (not in src/); spec section 6: `layers/<layerId>/rootfs/`. -/
def getImageLayerRootfsPath (storeDir : Path) (layerId : String) : Path :=
  getImageLayerPath storeDir layerId ++ ["rootfs"]

/-- Modelled from the spec: `paths::getImageLayerManifestPath` of
`paths.hpp` (not in src/); spec section 6: `layers/<layerId>/manifest`. -/
def getImageLayerManifestPath (storeDir : Path) (layerId : String) : Path :=
  getImageLayerPath storeDir layerId ++ ["manifest"]

/-- A parsed image reference (spec section 3); the stringification
follows the in-repo `ImageName` stream operator of
`slave/containerizer/provisioners/docker.hpp`: `registry/repo:tag` when a
registry is present, else `repo:tag`. -/
structure ImageReference where
  registry : Option String
  repository : String
  tag : String
deriving DecidableEq

/-- `stringify(reference)`, the canonical dedup key. -/
def stringify (r : ImageReference) : String :=
  (match r.registry with
   | some reg => reg ++ "/"
   | none => "") ++ r.repository ++ ":" ++ r.tag

/-- The cached image record: its ordered layer id list
(`Image::layer_ids` of the provisioner protobuf). -/
structure Image where
  layer_ids : List String
deriving DecidableEq

/-- The parsed docker v1 image manifest; treated as an opaque parsed
structure by the store (only produced by the external parser). -/
structure V1Manifest where
  raw : String
deriving DecidableEq

/-- `ImageInfo`: the public result of a `get` — ordered layer rootfs
paths plus the parsed manifest of the last layer. -/
structure ImageInfo where
  layerPaths : List Path
  manifest : V1Manifest
deriving DecidableEq

/-- External collaborators of the store (spec section 1: out of scope,
interfaces only): the docker v1 manifest parser and the metadata
manager's recover result. -/
structure Collab where
  parseV1 : String → Except String V1Manifest
  metadataRecover : Except String Unit

/-- One in-flight pull as recorded by the store: the identity of its
promise, the reference being pulled, and the staging directory the
original requester created (captured by the continuation closures). -/
structure PullRec where
  pid : Nat
  ref : ImageReference
  staging : Path
deriving DecidableEq

/-- The state owned by the `StoreProcess` actor: the store root, the
filesystem, the `pulling` dedup table (`hashmap<string,
Owned<Promise<Image>>>`), and fresh-name counters for staging directories
and promise identities. -/
structure StoreState where
  storeDir : Path
  fs : Fs
  pulling : List (String × PullRec)
  nextTemp : Nat
  nextPid : Nat
deriving DecidableEq

deriving instance DecidableEq for Except

/-- Observable events emitted by the store's steps. -/
inductive Event where
  | mkStaging (p : Path)
  | pullerInvoked (r : ImageReference) (staging : Path)
  | registered (name : String) (pid : Nat)
  | movedLayers (name : String) (layerIds : List String)
  | putInvoked (r : ImageReference) (layerIds : List String)
  | settled (name : String) (pid : Nat) (outcome : Except String Image)
  | rmdirAttempt (p : Path) (ok : Bool)
  | logWarning (msg : String)
deriving DecidableEq

/-- The value `StoreProcess::_get` returns to its caller: an immediate
failure, a resolved image (cache hit), or the future of the pull promise
identified by `pid`. -/
inductive GetResult where
  | failed (msg : String)
  | done (img : Image)
  | pending (pid : Nat)
deriving DecidableEq

/-- Result of one `_get` step: the caller-visible result, the new actor
state and the emitted events. -/
structure GetOut where
  result : GetResult
  state : StoreState
  events : List Event
deriving DecidableEq

/-- True exactly on `pullerInvoked` events. -/
def isPullerInvoked : Event → Bool
  | Event.pullerInvoked _ _ => true
  | _ => false

/-- `StoreProcess::_get` (store.cpp lines 197-247), as one atomic actor
step: return the cached image if any; otherwise create a fresh staging
directory; if the `pulling` table already has an entry for
`stringify(reference)` return its future, else dispatch the puller,
register the new promise under the key and return its future. -/
def StoreProcess_get (s : StoreState) (reference : ImageReference)
    (image : Option Image) : GetOut :=
  match image with
  | some img => { result := GetResult.done img, state := s, events := [] }
  | none =>
    match os_mkdtemp s.fs (getStagingTempDir s.storeDir) s.nextTemp with
    | Except.error e =>
        { result := GetResult.failed ("Failed to create a staging directory: " ++ e),
          state := { s with nextTemp := s.nextTemp + 1 },
          events := [] }
    | Except.ok (staging, fs1) =>
      let s1 : StoreState := { s with fs := fs1, nextTemp := s.nextTemp + 1 }
      let name := stringify reference
      match s1.pulling.find? (fun kv => kv.1 == name) with
      | none =>
        let pr : PullRec := { pid := s1.nextPid, ref := reference, staging := staging }
        { result := GetResult.pending pr.pid,
          state := { s1 with
            pulling := (name, pr) :: s1.pulling,
            nextPid := s1.nextPid + 1 },
          events := [Event.mkStaging staging,
                     Event.pullerInvoked reference staging,
                     Event.registered name pr.pid] }
      | some kv =>
        { result := GetResult.pending kv.2.pid, state := s1,
          events := [Event.mkStaging staging] }

/-- `StoreProcess::moveLayer` (store.cpp lines 296-336): skip when the
staged source is absent or the store-side target already exists;
otherwise mkdir the target and rename the staged subtree into it,
propagating either failure.  Returns the per-layer result together with
the filesystem after whatever mutations happened. -/
def moveLayer (d : Path) (fs : Fs) (staging : Path) (layerId : String) :
    Except String Unit × Fs :=
  let source := staging ++ [layerId]
  if os_exists fs source = false then (Except.ok (), fs)
  else
    let target := getImageLayerPath d layerId
    if os_exists fs target = true then (Except.ok (), fs)
    else
      match os_mkdir fs target with
      | Except.error e =>
          (Except.error ("Failed to create directory in store for layer \x27" ++
            layerId ++ "\x27: " ++ e), fs)
      | Except.ok fs1 =>
        match os_rename fs1 source target with
        | Except.error e =>
            (Except.error ("Failed to move layer from \x27" ++ pathStr source ++
              "\x27 to \x27" ++ pathStr target ++ "\x27: " ++ e), fs1)
        | Except.ok fs2 => (Except.ok (), fs2)

/-- The `foreach`/`collect` of `StoreProcess::moveLayers`: every
per-layer `moveLayer` body runs (they are created synchronously in list
order, so the filesystem is threaded through all of them), and the list
of failures is gathered in order. -/
def moveLayersAux (d : Path) (staging : Path) : List String → Fs → List String × Fs
  | [], fs => ([], fs)
  | layerId :: rest, fs =>
      let rfs := moveLayer d fs staging layerId
      let erest := moveLayersAux d staging rest rfs.2
      (match rfs.1 with
       | Except.ok _ => erest.1
       | Except.error e => e :: erest.1, erest.2)

/-- `StoreProcess::moveLayers` (store.cpp lines 282-293): place every
pulled layer; `collect` fails with the first per-layer failure, and on
success yields the original ordered layer id list unchanged. -/
def moveLayers (d : Path) (fs : Fs) (staging : Path) (layerIds : List String) :
    Except String (List String) × Fs :=
  let efs := moveLayersAux d staging layerIds fs
  match efs.1 with
  | [] => (Except.ok layerIds, efs.2)
  | e :: _ => (Except.error e, efs.2)

/-- The result of `StoreProcess::__get`: a fatal `CHECK_LT` assertion
failure (process abort), a returned `Failure`, or a successful
`ImageInfo`. -/
inductive GetInfoResult where
  | checkFailed
  | failed (msg : String)
  | ok (info : ImageInfo)
deriving DecidableEq

/-- `StoreProcess::__get` (store.cpp lines 250-279): assert
`CHECK_LT(0, image.layer_ids_size())` (modelled as the `checkFailed`
outcome when the list is empty, i.e. when it has no last element), build
the ordered rootfs paths, read the manifest of the last layer and parse
it as a docker v1 manifest. -/
def StoreProcess__get (c : Collab) (storeDir : Path) (fs : Fs) (image : Image) :
    GetInfoResult :=
  match image.layer_ids.getLast? with
  | none => GetInfoResult.checkFailed
  | some lastId =>
    let layerPaths := image.layer_ids.map (getImageLayerRootfsPath storeDir)
    match os_read fs (getImageLayerManifestPath storeDir lastId) with
    | Except.error e => GetInfoResult.failed ("Failed to read manifest: " ++ e)
    | Except.ok m =>
      match c.parseV1 m with
      | Except.error e =>
          GetInfoResult.failed ("Failed to parse docker v1 manifest: " ++ e)
      | Except.ok v1 => GetInfoResult.ok { layerPaths := layerPaths, manifest := v1 }

/-- `StoreProcess::recover` (store.cpp lines 171-174): a pure delegation
to the metadata manager's recover; the actor state is untouched. -/
def StoreProcess_recover (c : Collab) (s : StoreState) :
    Except String Unit × StoreState :=
  (c.metadataRecover, s)

/-- The `onAny` settlement continuation of `_get` (store.cpp lines
230-238): erase the table entry for `name`, then best-effort remove the
staging directory — a removal failure is only logged.  The promise
settles with `outcome`, untouched by the cleanup. -/
def settle (s : StoreState) (name : String) (pr : PullRec)
    (outcome : Except String Image) : StoreState × List Event :=
  match os_rmdir s.fs pr.staging with
  | Except.ok fs1 =>
      ({ s with pulling := s.pulling.filter fun kv => !(kv.1 == name), fs := fs1 },
       [Event.settled name pr.pid outcome, Event.rmdirAttempt pr.staging true])
  | Except.error e =>
      ({ s with pulling := s.pulling.filter fun kv => !(kv.1 == name) },
       [Event.settled name pr.pid outcome, Event.rmdirAttempt pr.staging false,
        Event.logWarning ("Failed to remove staging directory: " ++ e)])

/-- Delivery of the puller's result for the pull registered under
`name`: on failure the `then`-chain is skipped and the pull settles
failed; on success `moveLayers` runs, and if placement succeeds the
metadata manager's `put` is dispatched (the pull stays registered until
the put result arrives), else the pull settles with the placement
failure. -/
def pullResultStep (s : StoreState) (name : String)
    (result : Except String (List String)) : StoreState × List Event :=
  match s.pulling.find? (fun kv => kv.1 == name) with
  | none => (s, [])
  | some kv =>
    match result with
    | Except.error e => settle s name kv.2 (Except.error e)
    | Except.ok layerIds =>
      let mfs := moveLayers s.storeDir s.fs kv.2.staging layerIds
      match mfs.1 with
      | Except.error e => settle { s with fs := mfs.2 } name kv.2 (Except.error e)
      | Except.ok ids =>
          ({ s with fs := mfs.2 },
           [Event.movedLayers name ids, Event.putInvoked kv.2.ref ids])

/-- Delivery of the metadata manager's `put` result: the pull settles
with it (the promise was associated with the whole chain). -/
def putResultStep (s : StoreState) (name : String)
    (result : Except String Image) : StoreState × List Event :=
  match s.pulling.find? (fun kv => kv.1 == name) with
  | none => (s, [])
  | some kv => settle s name kv.2 result

/-- The inputs delivered to the store actor: a `_get` dispatch (with the
metadata manager's cached-image answer), a puller completion, or a
metadata `put` completion. -/
inductive Input where
  | getReq (r : ImageReference) (cached : Option Image)
  | pullResult (name : String) (res : Except String (List String))
  | putResult (name : String) (res : Except String Image)
deriving DecidableEq

/-- Result of one actor step: the caller-visible `_get` result when the
input was a `getReq`, the new state, and the emitted events. -/
structure StepOut where
  result : Option GetResult
  state : StoreState
  events : List Event
deriving DecidableEq

/-- One atomic step of the store actor. -/
def step (s : StoreState) (i : Input) : StepOut :=
  match i with
  | Input.getReq r cached =>
      let out := StoreProcess_get s r cached
      { result := some out.result, state := out.state, events := out.events }
  | Input.pullResult name res =>
      let se := pullResultStep s name res
      { result := none, state := se.1, events := se.2 }
  | Input.putResult name res =>
      let se := putResultStep s name res
      { result := none, state := se.1, events := se.2 }

/-- `n` back-to-back `_get` dispatches for the same uncached reference
(the serialization the single processor imposes on concurrent callers):
the list of caller results, the concatenated events, and the final
state. -/
def iterGet (r : ImageReference) : Nat → StoreState → List GetResult × List Event × StoreState
  | 0, s => ([], [], s)
  | Nat.succ n, s =>
      let out := StoreProcess_get s r none
      let rest := iterGet r n out.state
      (out.result :: rest.1, out.events ++ rest.2.1, rest.2.2)

/-- The staging directory `_get` creates for the next request. -/
def stagingNew (s : StoreState) : Path :=
  getStagingDir s.storeDir ++ [Nat.repr s.nextTemp]

/-- True exactly on `GetInfoResult.failed`, i.e. a `Failure` returned to
the caller (as opposed to a fatal `CHECK` or a success). -/
def isErrorReturn : GetInfoResult → Bool
  | GetInfoResult.failed _ => true
  | _ => false

/-- An empty filesystem with no injected failures. -/
def fsEmpty : Fs :=
  { paths := [], files := [], mkdirFails := [], renameFails := [],
    rmdirFails := [], mkdtempFails := [] }

/-- A concrete image reference used by the concrete instantiations. -/
def rDemo : ImageReference :=
  { registry := none, repository := "library/busybox", tag := "latest" }

/-- Its canonical dedup key. -/
def nameDemo : String := stringify rDemo

/-- A fresh store state over store root `store`. -/
def sDemo : StoreState :=
  { storeDir := ["store"], fs := fsEmpty, pulling := [], nextTemp := 0, nextPid := 0 }

/-- A concrete in-flight pull record for `rDemo`. -/
def prDemo : PullRec :=
  { pid := 0, ref := rDemo, staging := ["store", "staging", "0"] }

/-- A store state with one in-flight pull for `rDemo` and one placed
layer directory. -/
def sPullDemo : StoreState :=
  { storeDir := ["store"],
    fs := { fsEmpty with
      paths := [["store", "staging", "0"], ["store", "layers", "aaa"]] },
    pulling := [(nameDemo, prDemo)], nextTemp := 1, nextPid := 1 }

/-- A filesystem in which the staged layer `aaa` exists but creating its
store directory fails. -/
def fsMkdirFail : Fs :=
  { fsEmpty with
    paths := [["store", "staging", "0", "aaa"]],
    mkdirFails := [["store", "layers", "aaa"]] }

/-- A store state whose in-flight pull will fail layer placement. -/
def sMoveFailDemo : StoreState :=
  { storeDir := ["store"], fs := fsMkdirFail,
    pulling := [(nameDemo, prDemo)], nextTemp := 1, nextPid := 1 }

/-- A filesystem holding two placed layers and the manifest file of the
last one. -/
def fsManifest : Fs :=
  { fsEmpty with
    paths := [["store", "layers", "aaa"], ["store", "layers", "bbb"]],
    files := [(["store", "layers", "bbb", "manifest"], "mdata")] }

/-- Concrete collaborators: the parser rejects the contents `bad` and
wraps anything else. -/
def collabDemo : Collab :=
  { parseV1 := fun m =>
      if m = "bad" then Except.error "invalid json" else Except.ok { raw := m },
    metadataRecover := Except.ok () }

/-- A concrete two-layer image. -/
def imgDemo : Image := { layer_ids := ["aaa", "bbb"] }

/-- `fs` with one new directory created (used to state the effect of
`mkdtemp`). -/
def addPath (fs : Fs) (p : Path) : Fs :=
  { paths := p :: fs.paths, files := fs.files, mkdirFails := fs.mkdirFails,
    renameFails := fs.renameFails, rmdirFails := fs.rmdirFails,
    mkdtempFails := fs.mkdtempFails }

/-- The record `_get` registers when it starts a new pull. -/
def newPull (s : StoreState) (r : ImageReference) : PullRec :=
  { pid := s.nextPid, ref := r, staging := stagingNew s }

/-- The actor state after a `_get` step that starts a new pull. -/
def startState (s : StoreState) (r : ImageReference) : StoreState :=
  { storeDir := s.storeDir, fs := addPath s.fs (stagingNew s),
    pulling := (stringify r, newPull s r) :: s.pulling,
    nextTemp := s.nextTemp + 1, nextPid := s.nextPid + 1 }

/-- The actor state after a `_get` step that joins an existing pull. -/
def joinState (s : StoreState) : StoreState :=
  { storeDir := s.storeDir, fs := addPath s.fs (stagingNew s),
    pulling := s.pulling, nextTemp := s.nextTemp + 1, nextPid := s.nextPid }

theorem find?_filter_not (l : List (String × PullRec)) (name : String) :
    (l.filter fun kv => !(kv.1 == name)).find? (fun kv => kv.1 == name) = none := by
  induction l with
  | nil => rfl
  | cons a l ih =>
    by_cases h : a.1 == name
    · simp [List.filter_cons, h, ih]
    · simp [List.filter_cons, h, List.find?_cons, ih]

theorem staging_layers_disjoint (sd : Path) (t : String) (rest p : Path)
    (hl : getLayersDir sd <+: p) :
    ¬ ((getStagingDir sd ++ (t :: rest)) <+: p) := by
  intro hs
  have hs2 : sd ++ ("staging" :: t :: rest) <+: p := by
    simpa [getStagingDir, List.append_assoc] using hs
  have hl2 : sd ++ ["layers"] <+: p := by simpa [getLayersDir] using hl
  rcases List.prefix_or_prefix_of_prefix hl2 hs2 with h | h
  · rw [List.prefix_append_right_inj] at h
    exact absurd (List.cons_prefix_cons.mp h).1 (by decide)
  · rw [List.prefix_append_right_inj] at h
    exact absurd (List.cons_prefix_cons.mp h).1 (by decide)

/-- Claim C7: when the Metadata Index lookup returned a cached `Image`,
`StoreProcess::_get` returns that image directly (to be handed to the
assembly step): the state is untouched — no staging directory is created,
the puller is not invoked, no table entry is added — and no event is
emitted. -/
theorem get_cache_hit (s : StoreState) (r : ImageReference) (img : Image) :
    StoreProcess_get s r (some img)
      = { result := GetResult.done img, state := s, events := [] } := rfl

/-- Claim C9: `StoreProcess::recover` only delegates to the metadata
manager's recover; the actor state — in particular the pulling table and
the filesystem (hence any leftover staging directory) — is untouched. -/
theorem recover_delegates (c : Collab) (s : StoreState) :
    (StoreProcess_recover c s).1 = c.metadataRecover
  ∧ (StoreProcess_recover c s).2.pulling = s.pulling
  ∧ (StoreProcess_recover c s).2.fs = s.fs
  ∧ (StoreProcess_recover c s).2 = s :=
  ⟨rfl, rfl, rfl, rfl⟩

/-- Claim C2 (counterexample): at the concrete empty-layer image, the
assembly step hits the fatal `CHECK_LT(0, image.layer_ids_size())` —
aborting the process — instead of returning an error (`Failure`) to the
caller, so the claim's "rejects it by returning an error to the caller"
is false as stated. -/
theorem assembly_empty_not_error_return :
    StoreProcess__get collabDemo ["store"] fsEmpty { layer_ids := [] }
        = GetInfoResult.checkFailed
      ∧ isErrorReturn
          (StoreProcess__get collabDemo ["store"] fsEmpty { layer_ids := [] })
        = false :=
  ⟨rfl, rfl⟩

/-- Claim C2 (amended): for every `Image` whose layer id list is empty,
the result-assembly step (`StoreProcess::__get`) fails the fatal
`CHECK_LT(0, image.layer_ids_size())` assertion — a process abort, not
an error returned to the caller — and in particular it never returns a
successful `ImageInfo` with zero layers. -/
theorem assembly_empty_check_aborts (c : Collab) (d : Path) (fs : Fs)
    (img : Image) (h : img.layer_ids = []) :
    StoreProcess__get c d fs img = GetInfoResult.checkFailed := by
  unfold StoreProcess__get
  rw [h]
  rfl

theorem assembly_empty_check_aborts_witness :
    StoreProcess__get collabDemo ["store"] fsEmpty { layer_ids := [] }
      = GetInfoResult.checkFailed :=
  assembly_empty_check_aborts collabDemo ["store"] fsEmpty { layer_ids := [] } rfl

/-- Claim C8: for a non-empty image, assembly returns the layer rootfs
paths computed by the path layout in exactly the order of
`Image.layerIds` and reads the manifest from the manifest path of the
last layer id; an unreadable manifest file or a v1-parse failure yields
the corresponding descriptive error. -/
theorem assembly_spec (c : Collab) (d : Path) (fs : Fs) (img : Image)
    (lastId : String) (h : img.layer_ids.getLast? = some lastId) :
    (∀ e, os_read fs (getImageLayerManifestPath d lastId) = Except.error e →
        StoreProcess__get c d fs img
          = GetInfoResult.failed ("Failed to read manifest: " ++ e))
  ∧ (∀ m e, os_read fs (getImageLayerManifestPath d lastId) = Except.ok m →
        c.parseV1 m = Except.error e →
        StoreProcess__get c d fs img
          = GetInfoResult.failed ("Failed to parse docker v1 manifest: " ++ e))
  ∧ (∀ m v, os_read fs (getImageLayerManifestPath d lastId) = Except.ok m →
        c.parseV1 m = Except.ok v →
        StoreProcess__get c d fs img
          = GetInfoResult.ok { layerPaths := img.layer_ids.map (getImageLayerRootfsPath d),
                               manifest := v }) := by
  unfold StoreProcess__get
  rw [h]
  refine ⟨fun e hr => by simp [hr], fun m e hr hp => by simp [hr, hp],
    fun m v hr hp => by simp [hr, hp]⟩

theorem assembly_spec_witness :
    StoreProcess__get collabDemo ["store"] fsManifest imgDemo
      = GetInfoResult.ok
          { layerPaths := [["store", "layers", "aaa", "rootfs"],
                           ["store", "layers", "bbb", "rootfs"]],
            manifest := { raw := "mdata" } } := by
  have h := (assembly_spec collabDemo ["store"] fsManifest imgDemo "bbb"
    (by decide)).2.2 "mdata" { raw := "mdata" } (by decide) (by decide)
  simpa [imgDemo, getImageLayerRootfsPath, getImageLayerPath] using h

/-- Claim C4: per-layer placement (`StoreProcess::moveLayer`): if the
staged source path is absent it succeeds with the filesystem unchanged;
otherwise if the store-side layer directory already exists it succeeds
with the filesystem unchanged; otherwise it creates the final directory
and renames the staged subtree into it, and a failure of either the
mkdir or the rename is returned as that layer's failure. -/
theorem moveLayer_cases (d : Path) (fs : Fs) (staging : Path) (layerId : String) :
    (os_exists fs (staging ++ [layerId]) = false →
        moveLayer d fs staging layerId = (Except.ok (), fs))
  ∧ (os_exists fs (staging ++ [layerId]) = true →
     os_exists fs (getImageLayerPath d layerId) = true →
        moveLayer d fs staging layerId = (Except.ok (), fs))
  ∧ (∀ e, os_exists fs (staging ++ [layerId]) = true →
     os_exists fs (getImageLayerPath d layerId) = false →
     os_mkdir fs (getImageLayerPath d layerId) = Except.error e →
        moveLayer d fs staging layerId
          = (Except.error ("Failed to create directory in store for layer \x27" ++
              layerId ++ "\x27: " ++ e), fs))
  ∧ (∀ fs1 e, os_exists fs (staging ++ [layerId]) = true →
     os_exists fs (getImageLayerPath d layerId) = false →
     os_mkdir fs (getImageLayerPath d layerId) = Except.ok fs1 →
     os_rename fs1 (staging ++ [layerId]) (getImageLayerPath d layerId)
       = Except.error e →
        moveLayer d fs staging layerId
          = (Except.error ("Failed to move layer from \x27" ++
              pathStr (staging ++ [layerId]) ++ "\x27 to \x27" ++
              pathStr (getImageLayerPath d layerId) ++ "\x27: " ++ e), fs1))
  ∧ (∀ fs1 fs2, os_exists fs (staging ++ [layerId]) = true →
     os_exists fs (getImageLayerPath d layerId) = false →
     os_mkdir fs (getImageLayerPath d layerId) = Except.ok fs1 →
     os_rename fs1 (staging ++ [layerId]) (getImageLayerPath d layerId)
       = Except.ok fs2 →
        moveLayer d fs staging layerId = (Except.ok (), fs2)) := by
  refine ⟨fun h1 => by simp [moveLayer, h1],
    fun h1 h2 => by simp [moveLayer, h1, h2],
    fun e h1 h2 hm => by simp [moveLayer, h1, h2, hm],
    fun fs1 e h1 h2 hm hr => by simp [moveLayer, h1, h2, hm, hr],
    fun fs1 fs2 h1 h2 hm hr => by simp [moveLayer, h1, h2, hm, hr]⟩

theorem moveLayer_cases_witness :
    moveLayer ["store"] fsEmpty ["store", "staging", "0"] "aaa"
      = (Except.ok (), fsEmpty) :=
  (moveLayer_cases ["store"] fsEmpty ["store", "staging", "0"] "aaa").1 (by decide)

theorem settle_spec (s : StoreState) (name : String) (pr : PullRec)
    (outcome : Except String Image) :
    (settle s name pr outcome).1.pulling.find? (fun kv => kv.1 == name) = none
  ∧ Event.settled name pr.pid outcome ∈ (settle s name pr outcome).2
  ∧ ∃ b, Event.rmdirAttempt pr.staging b ∈ (settle s name pr outcome).2 := by
  unfold settle
  cases hr : os_rmdir s.fs pr.staging with
  | ok fs1 => exact ⟨find?_filter_not _ _, by simp, ⟨true, by simp⟩⟩
  | error e => exact ⟨find?_filter_not _ _, by simp, ⟨false, by simp⟩⟩

theorem settle_no_putInvoked (s : StoreState) (name : String) (pr : PullRec)
    (outcome : Except String Image) (r : ImageReference) (ids : List String) :
    Event.putInvoked r ids ∉ (settle s name pr outcome).2 := by
  unfold settle
  cases hr : os_rmdir s.fs pr.staging with
  | ok fs1 => simp
  | error e => simp

theorem moveLayers_ok_eq (d : Path) (fs : Fs) (st : Path) (l : List String)
    (ids : List String) (fsm : Fs)
    (h : moveLayers d fs st l = (Except.ok ids, fsm)) : ids = l := by
  unfold moveLayers at h
  dsimp only at h
  cases he : (moveLayersAux d st l fs).1 with
  | nil =>
    rw [he] at h
    simp only [Prod.mk.injEq, Except.ok.injEq] at h
    exact h.1.symm
  | cons e es =>
    rw [he] at h
    simp only [Prod.mk.injEq] at h
    exact absurd h.1 (by simp)

/-- Claim C5: once a pull settles — with the puller's failure, a layer
placement failure, or the metadata put's result — the pulling-table
entry for its canonical reference is removed and removal of that pull's
staging directory is attempted; the settled outcome delivered to the
callers is the pull's own result in every case (the statement holds for
every filesystem, in particular whether or not the rmdir fails), so a
staging-removal failure is never propagated. -/
theorem settle_cleanup (s : StoreState) (name : String) (pr : PullRec)
    (h : s.pulling.find? (fun kv => kv.1 == name) = some (name, pr)) :
    (∀ e,
        (step s (Input.pullResult name (Except.error e))).state.pulling.find?
            (fun kv => kv.1 == name) = none
      ∧ Event.settled name pr.pid (Except.error e)
          ∈ (step s (Input.pullResult name (Except.error e))).events
      ∧ ∃ b, Event.rmdirAttempt pr.staging b
          ∈ (step s (Input.pullResult name (Except.error e))).events)
  ∧ (∀ ids e fsm, moveLayers s.storeDir s.fs pr.staging ids = (Except.error e, fsm) →
        (step s (Input.pullResult name (Except.ok ids))).state.pulling.find?
            (fun kv => kv.1 == name) = none
      ∧ Event.settled name pr.pid (Except.error e)
          ∈ (step s (Input.pullResult name (Except.ok ids))).events
      ∧ ∃ b, Event.rmdirAttempt pr.staging b
          ∈ (step s (Input.pullResult name (Except.ok ids))).events)
  ∧ (∀ res,
        (step s (Input.putResult name res)).state.pulling.find?
            (fun kv => kv.1 == name) = none
      ∧ Event.settled name pr.pid res ∈ (step s (Input.putResult name res)).events
      ∧ ∃ b, Event.rmdirAttempt pr.staging b
          ∈ (step s (Input.putResult name res)).events) := by
  refine ⟨fun e => ?_, fun ids e fsm hm => ?_, fun res => ?_⟩
  · simp only [step, pullResultStep, h]
    exact settle_spec s name pr (Except.error e)
  · simp only [step, pullResultStep, h, hm]
    exact settle_spec { s with fs := fsm } name pr (Except.error e)
  · simp only [step, putResultStep, h]
    exact settle_spec s name pr res

theorem settle_cleanup_witness :
    (step sPullDemo (Input.pullResult nameDemo (Except.error "network error"))).state.pulling.find?
        (fun kv => kv.1 == nameDemo) = none
  ∧ Event.settled nameDemo 0 (Except.error "network error")
      ∈ (step sPullDemo (Input.pullResult nameDemo (Except.error "network error"))).events
  ∧ ∃ b, Event.rmdirAttempt ["store", "staging", "0"] b
      ∈ (step sPullDemo (Input.pullResult nameDemo (Except.error "network error"))).events :=
  (settle_cleanup sPullDemo nameDemo prDemo (by decide)).1 "network error"

theorem get_no_putInvoked (s : StoreState) (r : ImageReference) (c : Option Image)
    (r2 : ImageReference) (ids : List String) :
    Event.putInvoked r2 ids ∉ (StoreProcess_get s r c).events := by
  unfold StoreProcess_get
  cases c with
  | some img => simp
  | none =>
    cases hm : os_mkdtemp s.fs (getStagingTempDir s.storeDir) s.nextTemp with
    | error e => simp
    | ok dfs =>
      obtain ⟨st, f1⟩ := dfs
      dsimp only
      cases hf : ({ s with fs := f1, nextTemp := s.nextTemp + 1 } : StoreState).pulling.find?
          (fun kv => kv.1 == stringify r) with
      | none => simp [hf]
      | some kv => simp [hf]

/-- Claim C6: the metadata manager's `put` is dispatched only in the
step that delivered a successful puller result whose layer placement
(`moveLayers`) completed successfully — so strictly after all layers
were placed — and when any layer placement fails, no `put` is dispatched
for that pull. -/
theorem put_only_after_move (s : StoreState) :
    (∀ i r ids, Event.putInvoked r ids ∈ (step s i).events →
        ∃ name kv fsm, i = Input.pullResult name (Except.ok ids)
          ∧ s.pulling.find? (fun kv2 => kv2.1 == name) = some kv
          ∧ r = kv.2.ref
          ∧ moveLayers s.storeDir s.fs kv.2.staging ids = (Except.ok ids, fsm))
  ∧ (∀ name kv ids e fsm,
        s.pulling.find? (fun kv2 => kv2.1 == name) = some kv →
        moveLayers s.storeDir s.fs kv.2.staging ids = (Except.error e, fsm) →
        ∀ r2 ids2, Event.putInvoked r2 ids2
          ∉ (step s (Input.pullResult name (Except.ok ids))).events) := by
  constructor
  · intro i r ids hmem
    cases i with
    | getReq rr cached =>
      exfalso
      apply get_no_putInvoked s rr cached r ids
      simpa [step] using hmem
    | pullResult name res =>
      simp only [step, pullResultStep] at hmem
      cases hf : s.pulling.find? (fun kv2 => kv2.1 == name) with
      | none => rw [hf] at hmem; simp at hmem
      | some kv =>
        rw [hf] at hmem
        dsimp only at hmem
        cases res with
        | error e => exact absurd hmem (settle_no_putInvoked s name kv.2 (Except.error e) r ids)
        | ok layerIds =>
          dsimp only at hmem
          cases hm : (moveLayers s.storeDir s.fs kv.2.staging layerIds).1 with
          | error e =>
            rw [hm] at hmem
            dsimp only at hmem
            exact absurd hmem
              (settle_no_putInvoked _ name kv.2 (Except.error e) r ids)
          | ok ids1 =>
            rw [hm] at hmem
            dsimp only at hmem
            simp only [List.mem_cons, List.not_mem_nil, or_false] at hmem
            rcases hmem with h1 | h1
            · exact absurd h1 (by simp)
            · injection h1 with hr hi
              have hids : ids1 = layerIds :=
                moveLayers_ok_eq s.storeDir s.fs kv.2.staging layerIds ids1
                  (moveLayers s.storeDir s.fs kv.2.staging layerIds).2
                  (by rw [← hm])
              have hm2 : (moveLayers s.storeDir s.fs kv.2.staging layerIds).1
                  = Except.ok layerIds := by rw [hm, hids]
              refine ⟨name, kv, (moveLayers s.storeDir s.fs kv.2.staging layerIds).2,
                ?_, hf, hr, ?_⟩
              · rw [hi, hids]
              · rw [hi, hids, ← hm2]
    | putResult name res =>
      simp only [step, putResultStep] at hmem
      cases hf : s.pulling.find? (fun kv2 => kv2.1 == name) with
      | none => rw [hf] at hmem; simp at hmem
      | some kv =>
        rw [hf] at hmem
        dsimp only at hmem
        exact absurd hmem (settle_no_putInvoked s name kv.2 res r ids)
  · intro name kv ids e fsm hf hm r2 ids2
    simp only [step, pullResultStep, hf]
    have hm1 : (moveLayers s.storeDir s.fs kv.2.staging ids).1 = Except.error e := by
      rw [hm]
    rw [hm1]
    exact settle_no_putInvoked _ name kv.2 (Except.error e) r2 ids2

theorem get_start_eq (s : StoreState) (r : ImageReference)
    (hnone : s.pulling.find? (fun kv => kv.1 == stringify r) = none)
    (hmk : s.fs.mkdtempFails = []) :
    StoreProcess_get s r none =
      { result := GetResult.pending s.nextPid,
        state := startState s r,
        events := [Event.mkStaging (stagingNew s),
                   Event.pullerInvoked r (stagingNew s),
                   Event.registered (stringify r) s.nextPid] } := by
  unfold StoreProcess_get os_mkdtemp
  rw [hmk]
  simp only [List.not_mem_nil, if_false, ite_false]
  rw [hnone]
  simp [hmk, startState, newPull, addPath, stagingNew, getStagingTempDir,
    List.dropLast_concat]

theorem get_join_eq (s : StoreState) (r : ImageReference) (kv : String × PullRec)
    (hfind : s.pulling.find? (fun kv2 => kv2.1 == stringify r) = some kv)
    (hmk : s.fs.mkdtempFails = []) :
    StoreProcess_get s r none =
      { result := GetResult.pending kv.2.pid,
        state := joinState s,
        events := [Event.mkStaging (stagingNew s)] } := by
  unfold StoreProcess_get os_mkdtemp
  rw [hmk]
  simp only [List.not_mem_nil, if_false, ite_false]
  rw [hfind]
  simp [hmk, joinState, addPath, stagingNew, getStagingTempDir,
    List.dropLast_concat]

theorem iterGet_join (r : ImageReference) (kv : String × PullRec) :
    ∀ (n : Nat) (s : StoreState),
      s.pulling.find? (fun kv2 => kv2.1 == stringify r) = some kv →
      s.fs.mkdtempFails = [] →
      (iterGet r n s).1 = List.replicate n (GetResult.pending kv.2.pid)
    ∧ (iterGet r n s).2.1.filter isPullerInvoked = [] := by
  intro n
  induction n with
  | zero => intro s hf hm; exact ⟨rfl, rfl⟩
  | succ m ih =>
    intro s hf hm
    simp only [iterGet]
    rw [get_join_eq s r kv hf hm]
    dsimp only
    have hf2 : (joinState s).pulling.find? (fun kv2 => kv2.1 == stringify r)
        = some kv := hf
    have hm2 : (joinState s).fs.mkdtempFails = [] := hm
    have hrest := ih (joinState s) hf2 hm2
    rw [hrest.1, List.filter_append, hrest.2]
    exact ⟨by rw [List.replicate_succ], by simp [isPullerInvoked]⟩

/-- Claim C1: `n ≥ 1` serialized `_get` dispatches for the same uncached
reference (its key absent from the pulling table) invoke the puller
exactly once — with the first request's staging directory, so the
staging directories freshly created by the duplicate requests are never
passed to the puller — and every caller receives the future of the same
promise (`pid = s.nextPid`), hence all observe the same eventual
outcome. -/
theorem get_dedup (s : StoreState) (r : ImageReference) (n : Nat) (hn : 1 ≤ n)
    (hnone : s.pulling.find? (fun kv => kv.1 == stringify r) = none)
    (hmk : s.fs.mkdtempFails = []) :
    (iterGet r n s).2.1.filter isPullerInvoked
      = [Event.pullerInvoked r (stagingNew s)]
  ∧ ∀ res ∈ (iterGet r n s).1, res = GetResult.pending s.nextPid := by
  obtain ⟨m, rfl⟩ : ∃ m, n = m + 1 := ⟨n - 1, by omega⟩
  simp only [iterGet]
  rw [get_start_eq s r hnone hmk]
  dsimp only
  have hf : (startState s r).pulling.find? (fun kv2 => kv2.1 == stringify r)
      = some (stringify r, newPull s r) := by
    simp [startState, List.find?_cons]
  have hmk2 : (startState s r).fs.mkdtempFails = [] := hmk
  have hrest := iterGet_join r (stringify r, newPull s r) m (startState s r) hf hmk2
  rw [hrest.1, List.filter_append, hrest.2]
  constructor
  · simp [isPullerInvoked]
  · intro res hres
    rcases List.mem_cons.mp hres with h | h
    · exact h
    · have h2 := List.eq_of_mem_replicate h
      simpa [newPull] using h2

theorem get_dedup_witness :
    (iterGet rDemo 3 sDemo).2.1.filter isPullerInvoked
      = [Event.pullerInvoked rDemo (stagingNew sDemo)]
  ∧ ∀ res ∈ (iterGet rDemo 3 sDemo).1, res = GetResult.pending sDemo.nextPid :=
  get_dedup sDemo rDemo 3 (by decide) (by decide) (by decide)

/-- Claim C3: when `_get` starts a new pull (key absent from the
table), the pending handle is registered under the canonical key within
the same atomic processor step that initiates the pull — before the step
yields control, i.e. before any of the pull's asynchronous work can be
delivered — so the post-state's table maps the key to the new promise
and any subsequent lookup (a later `_get` for the same reference)
observes the entry: it joins the same promise and does not invoke the
puller again. -/
theorem register_visible (s : StoreState) (r : ImageReference)
    (hnone : s.pulling.find? (fun kv => kv.1 == stringify r) = none)
    (hmk : s.fs.mkdtempFails = []) :
    (StoreProcess_get s r none).state.pulling.find? (fun kv => kv.1 == stringify r)
      = some (stringify r, ⟨s.nextPid, r, stagingNew s⟩)
  ∧ (StoreProcess_get s r none).result = GetResult.pending s.nextPid
  ∧ (StoreProcess_get (StoreProcess_get s r none).state r none).result
      = GetResult.pending s.nextPid
  ∧ (StoreProcess_get (StoreProcess_get s r none).state r none).events.filter
      isPullerInvoked = [] := by
  rw [get_start_eq s r hnone hmk]
  dsimp only
  have hf : (startState s r).pulling.find? (fun kv2 => kv2.1 == stringify r)
      = some (stringify r, newPull s r) := by
    simp [startState, List.find?_cons]
  have hmk2 : (startState s r).fs.mkdtempFails = [] := hmk
  refine ⟨by simpa [newPull] using hf, rfl, ?_, ?_⟩
  · rw [get_join_eq (startState s r) r (stringify r, newPull s r) hf hmk2]
    exact rfl
  · rw [get_join_eq (startState s r) r (stringify r, newPull s r) hf hmk2]
    simp [isPullerInvoked]

theorem register_visible_witness :
    (StoreProcess_get sDemo rDemo none).state.pulling.find?
        (fun kv => kv.1 == stringify rDemo)
      = some (stringify rDemo, ⟨sDemo.nextPid, rDemo, stagingNew sDemo⟩)
  ∧ (StoreProcess_get sDemo rDemo none).result = GetResult.pending sDemo.nextPid
  ∧ (StoreProcess_get (StoreProcess_get sDemo rDemo none).state rDemo none).result
      = GetResult.pending sDemo.nextPid
  ∧ (StoreProcess_get (StoreProcess_get sDemo rDemo none).state rDemo none).events.filter
      isPullerInvoked = [] :=
  register_visible sDemo rDemo (by decide) (by decide)

theorem put_only_after_move_witness :
    Event.putInvoked rDemo ["aaa"]
      ∉ (step sMoveFailDemo (Input.pullResult nameDemo (Except.ok ["aaa"]))).events :=
  (put_only_after_move sMoveFailDemo).2 nameDemo (nameDemo, prDemo) ["aaa"]
    ("Failed to create directory in store for layer \x27aaa\x27: Permission denied")
    fsMkdirFail (by decide) (by decide) rDemo ["aaa"]

theorem renamePath_outside_subtree (src tgt p : Path) (h : ¬ src <+: p) :
    renamePath src tgt p = p := by
  unfold renamePath
  rw [if_neg]
  simpa [List.isPrefixOf_iff_prefix] using h

theorem moveLayer_mem_layers (sd : Path) (fs : Fs) (t layerId : String) (p : Path)
    (hl : getLayersDir sd <+: p) (hp : p ∈ fs.paths) :
    p ∈ (moveLayer sd fs (getStagingDir sd ++ [t]) layerId).2.paths := by
  have hdisj : ¬ ((getStagingDir sd ++ [t] ++ [layerId]) <+: p) := by
    have h := staging_layers_disjoint sd t [layerId] p hl
    simpa [List.append_assoc] using h
  unfold moveLayer
  dsimp only
  by_cases h1 : os_exists fs (getStagingDir sd ++ [t] ++ [layerId]) = false
  · rw [if_pos h1]; exact hp
  · rw [if_neg h1]
    by_cases h2 : os_exists fs (getImageLayerPath sd layerId) = true
    · rw [if_pos h2]; exact hp
    · rw [if_neg h2]
      unfold os_mkdir
      by_cases h3 : getImageLayerPath sd layerId ∈ fs.mkdirFails
      · rw [if_pos h3]; exact hp
      · rw [if_neg h3]
        dsimp only
        unfold os_rename
        by_cases h4 : (getStagingDir sd ++ [t] ++ [layerId])
            ∈ (Fs.mk (getImageLayerPath sd layerId :: fs.paths) fs.files
                fs.mkdirFails fs.renameFails fs.rmdirFails fs.mkdtempFails).renameFails
        · rw [if_pos h4]
          exact List.mem_cons_of_mem _ hp
        · rw [if_neg h4]
          dsimp only
          have hmem : p ∈ getImageLayerPath sd layerId :: fs.paths :=
            List.mem_cons_of_mem _ hp
          have := List.mem_map_of_mem
            (renamePath (getStagingDir sd ++ [t] ++ [layerId])
              (getImageLayerPath sd layerId)) hmem
          rwa [renamePath_outside_subtree _ _ _ hdisj] at this

theorem moveLayersAux_mem_layers (sd : Path) (t : String) (p : Path)
    (hl : getLayersDir sd <+: p) :
    ∀ (ids : List String) (fs : Fs), p ∈ fs.paths →
      p ∈ (moveLayersAux sd (getStagingDir sd ++ [t]) ids fs).2.paths := by
  intro ids
  induction ids with
  | nil => intro fs hp; exact hp
  | cons a rest ih =>
    intro fs hp
    simp only [moveLayersAux]
    exact ih _ (moveLayer_mem_layers sd fs t a p hl hp)

theorem moveLayers_snd (d : Path) (fs : Fs) (st : Path) (ids : List String) :
    (moveLayers d fs st ids).2 = (moveLayersAux d st ids fs).2 := by
  unfold moveLayers
  dsimp only
  cases h : (moveLayersAux d st ids fs).1 <;> rfl

theorem settle_mem_layers (s : StoreState) (name : String) (pr : PullRec)
    (outcome : Except String Image) (t : String)
    (hst : pr.staging = getStagingDir s.storeDir ++ [t])
    (p : Path) (hl : getLayersDir s.storeDir <+: p) (hp : p ∈ s.fs.paths) :
    p ∈ (settle s name pr outcome).1.fs.paths := by
  unfold settle os_rmdir
  by_cases h : pr.staging ∈ s.fs.rmdirFails
  · rw [if_pos h]; exact hp
  · rw [if_neg h]
    dsimp only
    refine List.mem_filter.mpr ⟨hp, ?_⟩
    have hd := staging_layers_disjoint s.storeDir t [] p hl
    simp only [hst, Bool.not_eq_true', ← Bool.not_eq_true]
    intro hc
    exact hd (List.isPrefixOf_iff_prefix.mp hc)

theorem settle_rmdir_target (s : StoreState) (name : String) (pr : PullRec)
    (outcome : Except String Image) (q : Path) (b : Bool)
    (hq : Event.rmdirAttempt q b ∈ (settle s name pr outcome).2) :
    q = pr.staging := by
  unfold settle at hq
  cases hr : os_rmdir s.fs pr.staging with
  | ok fs1 => rw [hr] at hq; simp at hq; exact hq.1
  | error e => rw [hr] at hq; simp at hq; exact hq.1

theorem get_no_rmdirAttempt (s : StoreState) (r : ImageReference) (c : Option Image)
    (q : Path) (b : Bool) :
    Event.rmdirAttempt q b ∉ (StoreProcess_get s r c).events := by
  unfold StoreProcess_get
  cases c with
  | some img => simp
  | none =>
    cases hm : os_mkdtemp s.fs (getStagingTempDir s.storeDir) s.nextTemp with
    | error e => simp
    | ok dfs =>
      obtain ⟨st, f1⟩ := dfs
      dsimp only
      cases hf : ({ s with fs := f1, nextTemp := s.nextTemp + 1 } : StoreState).pulling.find?
          (fun kv => kv.1 == stringify r) with
      | none => simp [hf]
      | some kv => simp [hf]

/-- Claim C10: no step of the store ever removes a path under the
store's `layers/` root — layers already placed stay on disk whether the
pull later fails or its metadata put fails — and the only directory
removal any step attempts is the staging directory of a registered
pull, at settlement. -/
theorem layers_never_removed (s : StoreState) (i : Input) (p : Path)
    (hs : ∀ kv ∈ s.pulling, ∃ t, kv.2.staging = getStagingDir s.storeDir ++ [t])
    (hp : p ∈ s.fs.paths)
    (hl : getLayersDir s.storeDir <+: p) :
    p ∈ (step s i).state.fs.paths
  ∧ ∀ q b, Event.rmdirAttempt q b ∈ (step s i).events →
      ∃ kv, kv ∈ s.pulling ∧ q = kv.2.staging := by
  cases i with
  | getReq r cached =>
    refine ⟨?_, fun q b hq =>
      absurd (by simpa [step] using hq) (get_no_rmdirAttempt s r cached q b)⟩
    simp only [step]
    unfold StoreProcess_get
    cases cached with
    | some img => exact hp
    | none =>
      unfold os_mkdtemp
      by_cases hm : s.nextTemp ∈ s.fs.mkdtempFails
      · rw [if_pos hm]; exact hp
      · rw [if_neg hm]
        dsimp only
        cases hf : s.pulling.find? (fun kv => kv.1 == stringify r) with
        | none => exact List.mem_cons_of_mem _ hp
        | some kv => exact List.mem_cons_of_mem _ hp
  | pullResult name res =>
    simp only [step]
    unfold pullResultStep
    cases hf : s.pulling.find? (fun kv => kv.1 == name) with
    | none => exact ⟨hp, by simp⟩
    | some kv =>
      dsimp only
      obtain ⟨t, ht⟩ := hs kv (List.mem_of_find?_eq_some hf)
      cases res with
      | error e =>
        exact ⟨settle_mem_layers s name kv.2 (Except.error e) t ht p hl hp,
          fun q b hq => ⟨kv, List.mem_of_find?_eq_some hf,
            settle_rmdir_target s name kv.2 (Except.error e) q b hq⟩⟩
      | ok layerIds =>
        dsimp only
        have hpm : p ∈ (moveLayers s.storeDir s.fs kv.2.staging layerIds).2.paths := by
          rw [moveLayers_snd, ht]
          exact moveLayersAux_mem_layers s.storeDir t p hl layerIds s.fs hp
        cases hmv : (moveLayers s.storeDir s.fs kv.2.staging layerIds).1 with
        | error e =>
          refine ⟨settle_mem_layers
              { s with fs := (moveLayers s.storeDir s.fs kv.2.staging layerIds).2 }
              name kv.2 (Except.error e) t ht p hl hpm,
            fun q b hq => ⟨kv, List.mem_of_find?_eq_some hf,
              settle_rmdir_target _ name kv.2 (Except.error e) q b hq⟩⟩
        | ok ids => exact ⟨hpm, fun q b hq => absurd hq (by simp)⟩
  | putResult name res =>
    simp only [step]
    unfold putResultStep
    cases hf : s.pulling.find? (fun kv => kv.1 == name) with
    | none => exact ⟨hp, by simp⟩
    | some kv =>
      dsimp only
      obtain ⟨t, ht⟩ := hs kv (List.mem_of_find?_eq_some hf)
      exact ⟨settle_mem_layers s name kv.2 res t ht p hl hp,
        fun q b hq => ⟨kv, List.mem_of_find?_eq_some hf,
          settle_rmdir_target s name kv.2 res q b hq⟩⟩

theorem layers_never_removed_witness :
    ["store", "layers", "aaa"]
      ∈ (step sPullDemo (Input.putResult nameDemo (Except.error "put failed"))).state.fs.paths :=
  (layers_never_removed sPullDemo (Input.putResult nameDemo (Except.error "put failed"))
    ["store", "layers", "aaa"]
    (by
      intro kv hkv
      rw [show sPullDemo.pulling = [(nameDemo, prDemo)] from rfl] at hkv
      rw [List.mem_singleton] at hkv
      subst hkv
      exact ⟨"0", rfl⟩)
    (by decide) (by decide)).1

end DockerStore
